import Mathlib

/-!
Shallow embedding of the LwM2M client core (TLV codec, resource tree write
paths, observation fan-out, Block1 uploads, registration driver) from
src/lwm2m of the lwm2m_python_client repository, together with theorems
checking the specification claims against it.

Bytes are modelled as `List Nat` with entries below 256; Python `int` is
`Int`; a Python `float` is its IEEE-754 binary64 bit pattern (`Nat` below
`2 ^ 64`); a Python `datetime` is its whole-second UTC epoch timestamp.
-/

namespace LwM2M

/-! ## Bytes and big-endian integers -/

/-- Big-endian byte serialisation of `v` into exactly `n` bytes
(`int.to_bytes(n, byteorder='big')` for `v < 256 ^ n`). -/
def beBytes : Nat → Nat → List Nat
  | 0, _ => []
  | n + 1, v => v / 256 ^ n % 256 :: beBytes n (v % 256 ^ n)

/-- Big-endian byte deserialisation (`int.from_bytes(bytes, byteorder='big')`). -/
def beNat (bs : List Nat) : Nat := bs.foldl (fun a b => a * 256 + b) 0

/-- Binary length of `n` (`int.bit_length()` in Python), computed with
structural recursion on a fuel bound so that it evaluates by `decide`. -/
def bitLenAux : Nat → Nat → Nat
  | 0, _ => 0
  | fuel + 1, n => if n = 0 then 0 else bitLenAux fuel (n / 2) + 1

/-- Binary length of `n` (`n.bit_length()`): 0 for 0, and otherwise the
position of the highest set bit plus one. -/
def bitLen (n : Nat) : Nat := bitLenAux n n

theorem bitLenAux_le_iff (fuel : Nat) : ∀ n k, n ≤ fuel →
    (bitLenAux fuel n ≤ k ↔ n < 2 ^ k) := by
  induction fuel with
  | zero =>
    intro n k h
    have hn : n = 0 := by omega
    subst hn
    simp [bitLenAux]
  | succ fuel ih =>
    intro n k h
    by_cases hn : n = 0
    · subst hn
      simp [bitLenAux]
    · rw [bitLenAux, if_neg hn]
      cases k with
      | zero =>
        simp only [pow_zero]
        omega
      | succ k =>
        have hrec : bitLenAux fuel (n / 2) ≤ k ↔ n / 2 < 2 ^ k :=
          ih (n / 2) k (by omega)
        have hpow : (2 : Nat) ^ (k + 1) = 2 ^ k * 2 := pow_succ 2 k
        omega

theorem bitLen_le_iff {n k : Nat} : bitLen n ≤ k ↔ n < 2 ^ k :=
  bitLenAux_le_iff n n k le_rfl

theorem lt_two_pow_bitLen (n : Nat) : n < 2 ^ bitLen n :=
  bitLen_le_iff.mp le_rfl

theorem bitLen_eq_zero_iff {n : Nat} : bitLen n = 0 ↔ n = 0 := by
  constructor
  · intro h
    have := lt_two_pow_bitLen n
    rw [h] at this
    omega
  · intro h
    subst h
    rfl

/-- Width in bytes that `encode_value` uses for a Python int:
`int(v.bit_length() / 8) + 1` (tlv.py line 53). -/
def intWidth (i : Int) : Nat := bitLen i.natAbs / 8 + 1

/-- Two's-complement big-endian encoding of a Python int at its
`encode_value` width (`v.to_bytes(..., signed=True)`). -/
def intToBytes (i : Int) : List Nat :=
  beBytes (intWidth i) ((i % ((256 : Int) ^ intWidth i)).toNat)

/-- Signed big-endian deserialisation
(`int.from_bytes(bytes, byteorder='big', signed=True)`). -/
def fromBytesSigned (bs : List Nat) : Int :=
  if 2 * (beNat bs : Int) < (256 : Int) ^ bs.length then (beNat bs : Int)
  else (beNat bs : Int) - (256 : Int) ^ bs.length

/-- Byte count computed by the `needs_bytes` lambda of tlv.py
(`1 if n == 0 else int(log(abs(n), 256)) + 1`), i.e. the number of base-256
digits of `n`; the float-log formula agrees with this at every branch
boundary the encoder consults (255/256, 65535/65536, checked against
CPython). -/
def needs_bytes (n : Nat) : Nat := if n = 0 then 1 else (bitLen n + 7) / 8

theorem beBytes_length (n v : Nat) : (beBytes n v).length = n := by
  induction n generalizing v with
  | zero => rfl
  | succ n ih => simp [beBytes, ih]

theorem beBytes_foldl (n : Nat) : ∀ v acc, v < 256 ^ n →
    (beBytes n v).foldl (fun a b => a * 256 + b) acc = acc * 256 ^ n + v := by
  induction n with
  | zero =>
    intro v acc h
    simp only [beBytes, List.foldl, pow_zero] at *
    omega
  | succ n ih =>
    intro v acc h
    have hP : 0 < 256 ^ n := Nat.pos_pow_of_pos n (by norm_num)
    have hd : v / 256 ^ n < 256 := by
      apply Nat.div_lt_of_lt_mul
      calc v < 256 ^ (n + 1) := h
        _ = 256 ^ n * 256 := by ring
    rw [beBytes, List.foldl, ih (v % 256 ^ n) _ (Nat.mod_lt _ hP)]
    have hmod : v / 256 ^ n % 256 = v / 256 ^ n := Nat.mod_eq_of_lt hd
    rw [hmod]
    calc (acc * 256 + v / 256 ^ n) * 256 ^ n + v % 256 ^ n
        = acc * (256 ^ n * 256) + (256 ^ n * (v / 256 ^ n) + v % 256 ^ n) := by ring
      _ = acc * 256 ^ (n + 1) + v := by rw [Nat.div_add_mod, pow_succ]

theorem beNat_beBytes {n v : Nat} (h : v < 256 ^ n) : beNat (beBytes n v) = v := by
  have := beBytes_foldl n v 0 h
  simpa [beNat] using this

theorem beNat_single (a : Nat) : beNat [a] = a := by simp [beNat]

theorem beNat_pair (a b : Nat) : beNat [a, b] = 256 * a + b := by
  simp [beNat]; ring

theorem beBytes_one (v : Nat) : beBytes 1 v = [v % 256] := by
  simp [beBytes]

theorem beBytes_two (v : Nat) : beBytes 2 v = [v / 256 % 256, v % 256] := by
  have h1 : (256 : Nat) ^ 1 = 256 := by norm_num
  simp [beBytes, h1]

theorem intWidth_bound (i : Int) : i.natAbs < 2 ^ (8 * intWidth i - 1) := by
  have h1 : i.natAbs < 2 ^ bitLen i.natAbs := lt_two_pow_bitLen _
  have h2 : bitLen i.natAbs ≤ 8 * intWidth i - 1 := by
    unfold intWidth; omega
  exact h1.trans_le (Nat.pow_le_pow_right (by norm_num) h2)

theorem intToBytes_length (i : Int) : (intToBytes i).length = intWidth i := by
  simp [intToBytes, beBytes_length]

theorem fromBytesSigned_beBytes (w : Nat) (i : Int) (hw1 : 1 ≤ w)
    (hb : i.natAbs < 2 ^ (8 * w - 1)) :
    fromBytesSigned (beBytes w ((i % ((256 : Int) ^ w)).toNat)) = i := by
  have hhalf : (2 : Nat) ^ (8 * w - 1) * 2 = 256 ^ w := by
    have h256 : (256 : Nat) ^ w = 2 ^ (8 * w) := by
      rw [show (256 : Nat) = 2 ^ 8 by norm_num, ← pow_mul]
    rw [h256, ← pow_succ, Nat.sub_add_cancel (by omega : 1 ≤ 8 * w)]
  have hHpos : 0 < (2 : Nat) ^ (8 * w - 1) := Nat.pos_pow_of_pos _ (by norm_num)
  have hcast : ((256 ^ w : Nat) : Int) = (256 : Int) ^ w := by push_cast; ring
  unfold fromBytesSigned
  rw [beBytes_length, ← hcast]
  generalize hM : (256 : Nat) ^ w = M at hhalf hcast ⊢
  generalize hH : (2 : Nat) ^ (8 * w - 1) = H at hhalf hb hHpos
  have hMpos : (0 : Int) < ((M : Nat) : Int) := by omega
  -- the serialised value is the two's complement residue of i modulo 256 ^ w
  have hres : i % ((M : Nat) : Int) = i ∨
      i % ((M : Nat) : Int) = i + ((M : Nat) : Int) := by
    rcases le_or_lt 0 i with hpos | hneg
    · left
      exact Int.emod_eq_of_lt hpos (by omega)
    · right
      have h1 : (i + ((M : Nat) : Int)) % ((M : Nat) : Int) = i % ((M : Nat) : Int) := by
        calc (i + ((M : Nat) : Int)) % ((M : Nat) : Int)
            = (i + ((M : Nat) : Int) * 1) % ((M : Nat) : Int) := by ring_nf
          _ = i % ((M : Nat) : Int) := by rw [Int.add_mul_emod_self_left]
      have h2 : (i + ((M : Nat) : Int)) % ((M : Nat) : Int) = i + ((M : Nat) : Int) :=
        Int.emod_eq_of_lt (by omega) (by omega)
      omega
  have hnonneg : 0 ≤ i % ((M : Nat) : Int) := Int.emod_nonneg i (by omega)
  have hulo : (((i % ((M : Nat) : Int)).toNat : Nat) : Int) = i % ((M : Nat) : Int) :=
    Int.toNat_of_nonneg hnonneg
  have hlt : i % ((M : Nat) : Int) < ((M : Nat) : Int) := Int.emod_lt_of_pos i hMpos
  have hult : (i % ((M : Nat) : Int)).toNat < M := by omega
  have hult2 : (i % ((M : Nat) : Int)).toNat < 256 ^ w := by rw [hM]; exact hult
  rw [beNat_beBytes hult2, hulo]
  rcases hres with h | h <;> rw [h] <;> split <;> omega

theorem fromBytesSigned_intToBytes (i : Int) : fromBytesSigned (intToBytes i) = i :=
  fromBytesSigned_beBytes (intWidth i) i (by unfold intWidth; omega) (intWidth_bound i)

/-! ## IEEE-754 model

A Python float is represented by its binary64 bit pattern (a `Nat` below
`2 ^ 64`); `struct.pack('>d', v)` serialises that pattern directly, and
`struct.pack('>f', v)`, used by `encode_value` only for finite values inside
the single range, narrows it with round-to-nearest-even. -/

/-- Sign bit of a binary64 pattern. -/
def f64Sign (b : Nat) : Nat := b / 2 ^ 63

/-- Biased exponent field of a binary64 pattern. -/
def f64Exp (b : Nat) : Nat := b / 2 ^ 52 % 2 ^ 11

/-- Fraction field of a binary64 pattern. -/
def f64Frac (b : Nat) : Nat := b % 2 ^ 52

/-- NaN test on a binary64 pattern. -/
def f64IsNaN (b : Nat) : Bool := f64Exp b == 2047 && f64Frac b != 0

/-- Signed-magnitude ordering key of a binary64 pattern (places `-0.0` and
`+0.0` together, as IEEE comparison does). -/
def f64Key (b : Nat) : Int :=
  if f64Sign b = 1 then -((b % 2 ^ 63 : Nat) : Int) else ((b % 2 ^ 63 : Nat) : Int)

/-- IEEE `<=` on binary64 patterns (false whenever either side is NaN),
modelling the Python float comparisons in `encode_value`. -/
def fle (a b : Nat) : Bool := !f64IsNaN a && !f64IsNaN b && decide (f64Key a ≤ f64Key b)

/-- Rounding of `m / 2 ^ k` to the nearest integer, ties to even. -/
def rneShift (m k : Nat) : Nat :=
  if 2 * (m % 2 ^ k) > 2 ^ k ∨ (2 * (m % 2 ^ k) = 2 ^ k ∧ m / 2 ^ k % 2 = 1) then
    m / 2 ^ k + 1
  else m / 2 ^ k

/-- Narrowing conversion binary64 → binary32 with round-to-nearest-even:
the semantics of `struct.pack('>f', v)` on the value of pattern `b`.
`encode_value` reaches this only for finite positive values between
`2 ^ (-149)` and the largest finite single; the non-finite branch is kept
for totality. -/
def f32OfF64 (b : Nat) : Nat :=
  let s := f64Sign b
  let e := f64Exp b
  let f := f64Frac b
  if e = 2047 then
    if f = 0 then s * 2 ^ 31 + 255 * 2 ^ 23
    else s * 2 ^ 31 + 255 * 2 ^ 23 + 2 ^ 22 + f / 2 ^ 29 % 2 ^ 22
  else if e = 0 then
    -- zeros, and subnormal doubles, which lie far below the subnormal-single
    -- range and round to a signed zero
    s * 2 ^ 31
  else
    -- the input value is (2^52 + f) * 2^(e - 1075); the result significand is
    -- rounded at single precision: 24 bits when the unbiased exponent
    -- e - 1023 reaches the normal-single minimum -126 (i.e. e >= 897), and at
    -- fixed scale 2^(-149) below it, hence the shifts 29 and 926 - e
    let m := 2 ^ 52 + f
    let q := if 897 ≤ e then rneShift m 29 else rneShift m (926 - e)
    let mag := if 897 ≤ e then (e - 897) * 2 ^ 23 + q else q
    if 255 * 2 ^ 23 ≤ mag then s * 2 ^ 31 + 255 * 2 ^ 23 else s * 2 ^ 31 + mag

/-- Widening conversion binary32 → binary64 (exact): the semantics of
`struct.unpack('>f', ...)`, whose result is a Python float (a double). -/
def f64OfF32 (w : Nat) : Nat :=
  let s := w / 2 ^ 31 % 2
  let e := w / 2 ^ 23 % 2 ^ 8
  let f := w % 2 ^ 23
  if e = 255 then s * 2 ^ 63 + 2047 * 2 ^ 52 + f * 2 ^ 29
  else if e = 0 then
    if f = 0 then s * 2 ^ 63
    else s * 2 ^ 63 + (bitLen f + 873) * 2 ^ 52 + (f - 2 ^ (bitLen f - 1)) * 2 ^ (53 - bitLen f)
  else s * 2 ^ 63 + (e + 896) * 2 ^ 52 + f * 2 ^ 29

/-- Binary64 pattern of `float.fromhex('0x0.000002P-126')`, i.e. `2 ^ (-149)`,
the lower bound of the single test in `encode_value`. -/
def singleMinBits : Nat := 874 * 2 ^ 52

/-- Binary64 pattern of `float.fromhex('0x1.fffffeP+127')`, the largest finite
single, the upper bound of the single test in `encode_value`. -/
def singleMaxBits : Nat := 1150 * 2 ^ 52 + 0xFFFFFE * 2 ^ 28

/-- Branch condition of `encode_value` for floats
(`float.fromhex('0x0.000002P-126') <= v <= float.fromhex('0x1.fffffeP+127')`). -/
def floatFitsSingle (b : Nat) : Bool := fle singleMinBits b && fle b singleMaxBits

/-- Exact representability of the value of a binary64 pattern as a binary32:
narrowing followed by widening is the identity. -/
def isSingleExact (b : Nat) : Bool := f64OfF32 (f32OfF64 b) == b

/-! ## Values and the TLV codec (src/lwm2m/tlv.py) -/

/-- TLV record kinds (`TlvType` in tlv.py). -/
inductive TlvType
  | OBJECT_INSTANCE
  | RESOURCE_INSTANCE
  | MULTIPLE_RESOURCE
  | RESOURCE_VALUE
deriving DecidableEq

/-- Numeric value of a TLV kind (the high two bits of the type byte). -/
def TlvType.val : TlvType → Nat
  | .OBJECT_INSTANCE => 0x00
  | .RESOURCE_INSTANCE => 0x40
  | .MULTIPLE_RESOURCE => 0x80
  | .RESOURCE_VALUE => 0xC0

/-- Python runtime type names that `encode_value`/`decode_value` dispatch on. -/
inductive Tag
  | int
  | str
  | float
  | bool
  | datetime
  | bytes
deriving DecidableEq

/-- A resource value: one variant per Python type handled by the codec.
Strings carry their UTF-8 bytes, floats their binary64 bit pattern,
datetimes their whole-second UTC epoch timestamp. -/
inductive Value
  | vint (i : Int)
  | vstr (s : List Nat)
  | vfloat (b : Nat)
  | vbool (b : Bool)
  | vdatetime (t : Int)
  | vbytes (s : List Nat)
deriving DecidableEq

/-- Runtime type name of a value (`type(v).__name__`). -/
def tagOf : Value → Tag
  | .vint _ => .int
  | .vstr _ => .str
  | .vfloat _ => .float
  | .vbool _ => .bool
  | .vdatetime _ => .datetime
  | .vbytes _ => .bytes

/-- `TlvEncoder.encode_value` (tlv.py lines 47..73): serialise a resource
value based on its runtime type.  A datetime is encoded as the int
`int(v.timestamp())`, here its whole-second timestamp. -/
def encode_value : Value → List Nat
  | .vint i => intToBytes i
  | .vstr s => s
  | .vfloat b =>
    if floatFitsSingle b then beBytes 4 (f32OfF64 b) else beBytes 8 b
  | .vbool b => if b then [1] else [0]
  | .vdatetime t => intToBytes t
  | .vbytes s => s

/-- `TlvEncoder.encode_tlv` (tlv.py lines 76..105) on an explicit payload.
The type byte is assembled from disjoint bit fields, written here as sums;
for lengths of 65536 and above the source computes the leading length byte
as `_len & 0xFF0000 >> 16`, which Python parses as `_len & (0xFF0000 >> 16)`,
i.e. `_len & 0xFF`. -/
def encode_tlv_raw (t : TlvType) (id : Nat) (payload : List Nat) : List Nat :=
  let len := payload.length
  let ty1 := t.val + (if needs_bytes id = 1 then 0 else 32)
  let ty :=
    if len < 8 then ty1 + len
    else if needs_bytes len = 1 then ty1 + 8
    else if needs_bytes len = 2 then ty1 + 16
    else ty1 + 24
  let idBytes := if id < 256 then beBytes 1 id else beBytes 2 id
  let lenBytes :=
    if len < 8 then []
    else if len < 256 then beBytes 1 len
    else if len < 65536 then beBytes 2 len
    else beBytes 1 (len % 256) ++ beBytes 2 (len % 65536)
  ty :: (idBytes ++ (lenBytes ++ payload))

/-- `TlvEncoder.encode_tlv` applied to a resource value. -/
def encode_tlv (t : TlvType) (id : Nat) (v : Value) : List Nat :=
  encode_tlv_raw t id (encode_value v)

/-- `TlvDecoder.decode_tlv` (tlv.py lines 198..221).  Python bit operations
on the non-negative type byte are written arithmetically:
`x >> 3 & 0b11` is `x / 8 % 4`, `x >> 5 & 1` is `x / 32 % 2`,
`x & 0b111` is `x % 8`, and `x & 0b11000000` is `x / 64 * 64` (the byte is
below 256).  Python list slices never fail, so the only failure is the
`IndexError` from `_bytes[0]` on empty input, modelled as `none`;
slicing with `take`/`drop` silently truncates exactly as the source does. -/
def decode_tlv : List Nat → Option (Nat × Nat × List Nat × List Nat)
  | [] => none
  | ty :: rest =>
    let lenType := ty / 8 % 4
    let idSz := if ty / 32 % 2 = 1 then 2 else 1
    let id := beNat (rest.take idSz)
    let p1 := rest.drop idSz
    let len := if lenType = 0 then ty % 8 else beNat (p1.take lenType)
    let p2 := if lenType = 0 then p1 else p1.drop lenType
    some (ty / 64 * 64, id, p2.take len, p2.drop len)

/-- Validity of a byte sequence under CPython's strict UTF-8 decoder
(`bytes.decode('utf-8')`): no overlong forms, no surrogates, nothing above
U+10FFFF. -/
def utf8Valid : List Nat → Bool
  | [] => true
  | b :: rest =>
    if b ≤ 0x7F then utf8Valid rest
    else if 0xC2 ≤ b && b ≤ 0xDF then
      match rest with
      | c1 :: r => 0x80 ≤ c1 && c1 ≤ 0xBF && utf8Valid r
      | [] => false
    else if 0xE0 ≤ b && b ≤ 0xEF then
      match rest with
      | c1 :: c2 :: r =>
        (if b = 0xE0 then 0xA0 ≤ c1 && c1 ≤ 0xBF
         else if b = 0xED then 0x80 ≤ c1 && c1 ≤ 0x9F
         else 0x80 ≤ c1 && c1 ≤ 0xBF) &&
        (0x80 ≤ c2 && c2 ≤ 0xBF) && utf8Valid r
      | _ => false
    else if 0xF0 ≤ b && b ≤ 0xF4 then
      match rest with
      | c1 :: c2 :: c3 :: r =>
        (if b = 0xF0 then 0x90 ≤ c1 && c1 ≤ 0xBF
         else if b = 0xF4 then 0x80 ≤ c1 && c1 ≤ 0x8F
         else 0x80 ≤ c1 && c1 ≤ 0xBF) &&
        (0x80 ≤ c2 && c2 ≤ 0xBF) && (0x80 ≤ c3 && c3 ≤ 0xBF) && utf8Valid r
      | _ => false
    else false

/-- Lower bound of `datetime.utcfromtimestamp` (year 1). -/
def tsMin : Int := -62135596800

/-- Upper bound of `datetime.utcfromtimestamp` (year 9999). -/
def tsMax : Int := 253402300799

/-- `TlvDecoder.decode_value` (tlv.py lines 175..195): deserialise value
bytes under the resource's declared runtime type; `none` models the
exceptions the source raises (TypeError for a float field whose width is not
4 or 8 bytes, UnicodeDecodeError for invalid UTF-8, OverflowError/ValueError
for timestamps outside the datetime range). -/
def decode_value (t : Tag) (bs : List Nat) : Option Value :=
  match t with
  | .int => some (.vint (fromBytesSigned bs))
  | .str => if utf8Valid bs then some (.vstr bs) else none
  | .float =>
    if bs.length = 4 then some (.vfloat (f64OfF32 (beNat bs)))
    else if bs.length = 8 then some (.vfloat (beNat bs))
    else none
  | .bool => some (.vbool (beNat bs != 0))
  | .datetime =>
    if tsMin ≤ fromBytesSigned bs ∧ fromBytesSigned bs ≤ tsMax then
      some (.vdatetime (fromBytesSigned bs))
    else none
  | .bytes => some (.vbytes bs)

theorem needs_bytes_eq_one_iff {n : Nat} : needs_bytes n = 1 ↔ n < 256 := by
  unfold needs_bytes
  by_cases h : n = 0
  · subst h; simp
  · rw [if_neg h]
    have h256 : (2 : Nat) ^ 8 = 256 := by norm_num
    have h1a : bitLen n ≤ 8 → n < 256 := fun hh => h256 ▸ bitLen_le_iff.mp hh
    have h1b : n < 256 → bitLen n ≤ 8 := fun hh => bitLen_le_iff.mpr (h256 ▸ hh)
    have h2 : bitLen n ≠ 0 := fun hz => h (bitLen_eq_zero_iff.mp hz)
    omega

theorem needs_bytes_eq_two_iff {n : Nat} : needs_bytes n = 2 ↔ 256 ≤ n ∧ n < 65536 := by
  unfold needs_bytes
  by_cases h : n = 0
  · subst h; simp
  · rw [if_neg h]
    have h256 : (2 : Nat) ^ 8 = 256 := by norm_num
    have h65536 : (2 : Nat) ^ 16 = 65536 := by norm_num
    have h1a : bitLen n ≤ 8 → n < 256 := fun hh => h256 ▸ bitLen_le_iff.mp hh
    have h1b : n < 256 → bitLen n ≤ 8 := fun hh => bitLen_le_iff.mpr (h256 ▸ hh)
    have h2a : bitLen n ≤ 16 → n < 65536 := fun hh => h65536 ▸ bitLen_le_iff.mp hh
    have h2b : n < 65536 → bitLen n ≤ 16 := fun hh => bitLen_le_iff.mpr (h65536 ▸ hh)
    omega

theorem tlvVal_split (t : TlvType) : ∃ k, k < 4 ∧ t.val = 64 * k := by
  cases t
  exacts [⟨0, by norm_num, rfl⟩, ⟨1, by norm_num, rfl⟩,
    ⟨2, by norm_num, rfl⟩, ⟨3, by norm_num, rfl⟩]

theorem take_one_cons (a : α) (l : List α) : (a :: l).take 1 = [a] := rfl

theorem take_two_cons (a b : α) (l : List α) : (a :: b :: l).take 2 = [a, b] := rfl

theorem drop_one_cons (a : α) (l : List α) : (a :: l).drop 1 = l := rfl

theorem drop_two_cons (a b : α) (l : List α) : (a :: b :: l).drop 2 = l := rfl

/-- Round trip of the TLV header for payloads below the 65536-byte mark at
which the encoder's three-byte length field is miscomputed. -/
theorem decode_encode_tlv_raw (t : TlvType) (id : Nat) (p : List Nat)
    (hid : id ≤ 65535) (hp : p.length < 65536) :
    decode_tlv (encode_tlv_raw t id p) = some (t.val, id, p, []) := by
  obtain ⟨k, hk4, hkv⟩ := tlvVal_split t
  simp only [encode_tlv_raw]
  by_cases hid1 : id < 256
  · rw [if_pos (needs_bytes_eq_one_iff.mpr hid1), if_pos hid1, beBytes_one,
      Nat.mod_eq_of_lt hid1]
    by_cases hl8 : p.length < 8
    · rw [if_pos hl8, if_pos hl8]
      simp only [List.nil_append, List.singleton_append, Nat.add_zero]
      simp only [decode_tlv]
      have e1 : (t.val + p.length) / 32 % 2 = 0 := by omega
      have e2 : (t.val + p.length) / 8 % 4 = 0 := by omega
      have e3 : (t.val + p.length) % 8 = p.length := by omega
      have e4 : (t.val + p.length) / 64 * 64 = t.val := by omega
      rw [if_neg (by omega : ¬(t.val + p.length) / 32 % 2 = 1), e2, e3, e4,
        if_pos rfl, if_pos rfl, take_one_cons, drop_one_cons, beNat_single,
        List.take_length, List.drop_length]
    · rw [if_neg hl8, if_neg hl8]
      by_cases hl256 : p.length < 256
      · rw [if_pos (needs_bytes_eq_one_iff.mpr hl256), if_pos hl256, beBytes_one,
          Nat.mod_eq_of_lt hl256]
        simp only [List.singleton_append, List.cons_append, List.nil_append, Nat.add_zero]
        simp only [decode_tlv]
        have e1 : (t.val + 8) / 32 % 2 = 0 := by omega
        have e2 : (t.val + 8) / 8 % 4 = 1 := by omega
        have e4 : (t.val + 8) / 64 * 64 = t.val := by omega
        rw [if_neg (by omega : ¬(t.val + 8) / 32 % 2 = 1), e2, e4,
          if_neg (by norm_num), if_neg (by norm_num),
          take_one_cons, drop_one_cons, take_one_cons, drop_one_cons,
          beNat_single, beNat_single, List.take_length, List.drop_length]
      · have hnb2 : needs_bytes p.length = 2 := needs_bytes_eq_two_iff.mpr (by omega)
        rw [if_neg (show ¬needs_bytes p.length = 1 from fun hh => hl256
            (needs_bytes_eq_one_iff.mp hh)),
          if_pos hnb2, if_neg hl256, if_pos hp, beBytes_two]
        simp only [List.singleton_append, List.cons_append, List.nil_append, Nat.add_zero]
        simp only [decode_tlv]
        have e1 : (t.val + 16) / 32 % 2 = 0 := by omega
        have e2 : (t.val + 16) / 8 % 4 = 2 := by omega
        have e4 : (t.val + 16) / 64 * 64 = t.val := by omega
        have e5 : 256 * (p.length / 256 % 256) + p.length % 256 = p.length := by omega
        rw [if_neg (by omega : ¬(t.val + 16) / 32 % 2 = 1), e2, e4,
          if_neg (by norm_num), if_neg (by norm_num),
          take_one_cons, drop_one_cons, take_two_cons, drop_two_cons,
          beNat_single, beNat_pair, e5, List.take_length, List.drop_length]
  · have hnbid : needs_bytes id ≠ 1 := fun hh => hid1 (needs_bytes_eq_one_iff.mp hh)
    rw [if_neg hnbid, if_neg hid1, beBytes_two]
    have eid : 256 * (id / 256 % 256) + id % 256 = id := by omega
    by_cases hl8 : p.length < 8
    · rw [if_pos hl8, if_pos hl8]
      simp only [List.nil_append, List.cons_append, Nat.add_zero]
      simp only [decode_tlv]
      have e1 : (t.val + 32 + p.length) / 32 % 2 = 1 := by omega
      have e2 : (t.val + 32 + p.length) / 8 % 4 = 0 := by omega
      have e3 : (t.val + 32 + p.length) % 8 = p.length := by omega
      have e4 : (t.val + 32 + p.length) / 64 * 64 = t.val := by omega
      rw [if_pos e1, e2, e3, e4,
        if_pos rfl, if_pos rfl, take_two_cons, drop_two_cons, beNat_pair, eid,
        List.take_length, List.drop_length]
    · rw [if_neg hl8, if_neg hl8]
      by_cases hl256 : p.length < 256
      · rw [if_pos (needs_bytes_eq_one_iff.mpr hl256), if_pos hl256, beBytes_one,
          Nat.mod_eq_of_lt hl256]
        simp only [List.cons_append, List.singleton_append, List.nil_append]
        simp only [decode_tlv]
        have e1 : (t.val + 32 + 8) / 32 % 2 = 1 := by omega
        have e2 : (t.val + 32 + 8) / 8 % 4 = 1 := by omega
        have e4 : (t.val + 32 + 8) / 64 * 64 = t.val := by omega
        rw [if_pos e1, e2, e4,
          if_neg (by norm_num), if_neg (by norm_num),
          take_two_cons, drop_two_cons, take_one_cons, drop_one_cons,
          beNat_pair, eid, beNat_single, List.take_length, List.drop_length]
      · have hnbl : needs_bytes p.length = 2 := needs_bytes_eq_two_iff.mpr (by omega)
        rw [if_neg (show ¬needs_bytes p.length = 1 from fun hh => hl256
            (needs_bytes_eq_one_iff.mp hh)),
          if_pos hnbl, if_neg hl256, if_pos hp, beBytes_two]
        simp only [List.cons_append, List.nil_append]
        simp only [decode_tlv]
        have e1 : (t.val + 32 + 16) / 32 % 2 = 1 := by omega
        have e2 : (t.val + 32 + 16) / 8 % 4 = 2 := by omega
        have e4 : (t.val + 32 + 16) / 64 * 64 = t.val := by omega
        have e5 : 256 * (p.length / 256 % 256) + p.length % 256 = p.length := by omega
        rw [if_pos e1, e2, e4,
          if_neg (by norm_num), if_neg (by norm_num),
          take_two_cons, drop_two_cons, take_two_cons, drop_two_cons,
          beNat_pair, eid, beNat_pair, e5, List.take_length, List.drop_length]

theorem f32OfF64_lt (b : Nat) (hb : b < 2 ^ 64) : f32OfF64 b < 2 ^ 32 := by
  have hs : f64Sign b ≤ 1 := by
    unfold f64Sign
    omega
  have hmod : f64Frac b / 2 ^ 29 % 2 ^ 22 < 2 ^ 22 :=
    Nat.mod_lt _ (by norm_num)
  simp only [f32OfF64]
  split_ifs <;> omega

/-- Side condition under which the value codec round-trips: needed only for
strings (must be valid UTF-8, as every encoded Python str is), floats (the
pattern is a real binary64, and values inside the positive single range must
be exactly single-representable, since `pack('>f', ...)` rounds), and
timestamps (within the range `datetime.utcfromtimestamp` accepts). -/
def roundTripSafe : Value → Bool
  | .vint _ => true
  | .vstr s => utf8Valid s
  | .vfloat b => decide (b < 2 ^ 64) && (!floatFitsSingle b || isSingleExact b)
  | .vbool _ => true
  | .vdatetime ts => decide (tsMin ≤ ts) && decide (ts ≤ tsMax)
  | .vbytes _ => true

theorem decode_encode_value (v : Value) (hv : roundTripSafe v = true) :
    decode_value (tagOf v) (encode_value v) = some v := by
  cases v with
  | vint i =>
    simp [decode_value, encode_value, tagOf, fromBytesSigned_intToBytes]
  | vstr s =>
    simp only [roundTripSafe] at hv
    simp [decode_value, encode_value, tagOf, hv]
  | vfloat b =>
    simp only [roundTripSafe] at hv
    rw [Bool.and_eq_true, Bool.or_eq_true, decide_eq_true_eq] at hv
    obtain ⟨hb64, hfit⟩ := hv
    by_cases hf : floatFitsSingle b = true
    · have hx : isSingleExact b = true := by
        rcases hfit with h | h
        · rw [Bool.not_eq_true'] at h
          rw [h] at hf
          cases hf
        · exact h
      have hxx : f64OfF32 (f32OfF64 b) = b := by
        simp only [isSingleExact, beq_iff_eq] at hx
        exact hx
      have hlt : f32OfF64 b < 256 ^ 4 := by
        have h1 := f32OfF64_lt b hb64
        have h2 : (256 : Nat) ^ 4 = 2 ^ 32 := by norm_num
        omega
      simp [encode_value, hf, decode_value, tagOf, beBytes_length,
        beNat_beBytes hlt, hxx]
    · have hlt : b < 256 ^ 8 := by
        have h2 : (256 : Nat) ^ 8 = 2 ^ 64 := by norm_num
        omega
      simp [encode_value, hf, decode_value, tagOf, beBytes_length, beNat_beBytes hlt]
  | vbool b =>
    cases b <;> simp [decode_value, encode_value, tagOf, beNat]
  | vdatetime ts =>
    simp only [roundTripSafe] at hv
    rw [Bool.and_eq_true, decide_eq_true_eq, decide_eq_true_eq] at hv
    simp [decode_value, encode_value, tagOf, fromBytesSigned_intToBytes, hv.1, hv.2]
  | vbytes s => simp [decode_value, encode_value, tagOf]

/-- Claim C1 (amended): for the supported variants, any id up to 65535 and
any TLV kind, decoding the encoding returns the kind, the id, the value
bytes with empty remainder, and the value bytes decode back to the value —
provided the encoded value is shorter than 65536 bytes (beyond which the
encoder's three-byte length header is miscomputed) and the value satisfies
`roundTripSafe`; moreover a float taking the single-precision branch of
`encode_value` is encoded in exactly 4 bytes. -/
theorem tlv_roundtrip (t : TlvType) (id : Nat) (v : Value)
    (hid : id ≤ 65535) (hlen : (encode_value v).length < 65536)
    (hv : roundTripSafe v = true) :
    decode_tlv (encode_tlv t id v) = some (t.val, id, encode_value v, []) ∧
    decode_value (tagOf v) (encode_value v) = some v ∧
    (∀ b, v = Value.vfloat b → floatFitsSingle b = true →
      (encode_value v).length = 4) := by
  refine ⟨decode_encode_tlv_raw t id (encode_value v) hid hlen,
    decode_encode_value v hv, ?_⟩
  rintro b rfl hf
  simp [encode_value, hf, beBytes_length]

/-- Witness for claim C1 at the single-representable float 1.5, kind
RESOURCE_VALUE, id 3. -/
theorem tlv_roundtrip_witness :
    decode_tlv (encode_tlv .RESOURCE_VALUE 3 (.vfloat 0x3FF8000000000000)) =
      some (TlvType.RESOURCE_VALUE.val, 3,
        encode_value (.vfloat 0x3FF8000000000000), []) ∧
    decode_value (tagOf (.vfloat 0x3FF8000000000000))
      (encode_value (.vfloat 0x3FF8000000000000)) =
      some (.vfloat 0x3FF8000000000000) ∧
    (∀ b, Value.vfloat 0x3FF8000000000000 = Value.vfloat b →
      floatFitsSingle b = true →
      (encode_value (Value.vfloat 0x3FF8000000000000)).length = 4) :=
  tlv_roundtrip .RESOURCE_VALUE 3 (.vfloat 0x3FF8000000000000)
    (by decide) (by decide) (by decide)

/-- Counterexample to claim C1 as stated: the Python float 0.1 (binary64
pattern 0x3FB999999999999A) lies inside the single range, so `encode_value`
packs it as a single, which rounds; decoding returns the widened single
0x3FB99999A0000000, a different value, so `decode_value(V, bytes)` does not
equal `v` for every representable value. -/
theorem tlv_roundtrip_counterexample :
    decode_tlv (encode_tlv .RESOURCE_VALUE 5 (.vfloat 0x3FB999999999999A)) =
      some (0xC0, 5, [61, 204, 204, 205], []) ∧
    decode_value .float [61, 204, 204, 205] =
      some (.vfloat 0x3FB99999A0000000) ∧
    Value.vfloat 0x3FB99999A0000000 ≠ Value.vfloat 0x3FB999999999999A :=
  ⟨by decide, by decide, by decide⟩

/-! ## Resource tree write paths (src/lwm2m/resource.py, object.py, tlv.py) -/

/-- CoAP response codes used by the embedded handlers (aiocoap `Code`). -/
inductive Code
  | CONTENT
  | CHANGED
  | CREATED
  | DELETED
  | CONTINUE
  | BAD_REQUEST
  | NOT_FOUND
  | NOT_ACCEPTABLE
  | REQUEST_ENTITY_INCOMPLETE
deriving DecidableEq

/-- Content-format numbers (`MediaType` in tlv.py). -/
def MediaTypeTLV : Nat := 11542

/-- Content-format number of `application/octet-stream`. -/
def MediaTypeOPAQUE : Nat := 42

/-- An incoming CoAP write request: its Content-Format option and payload. -/
structure WriteReq where
  content_format : Nat
  payload : List Nat
deriving DecidableEq

/-- What a resource object stores in its `value` attribute.  The write paths
can assign either a decoded scalar or, for a kind-confused TLV, a whole
decoded instance dict (`LwM2MResourceBase.update` assigns whatever it is
given). -/
inductive Stored
  | val (v : Value)
  | insts (l : List (Nat × Value))
deriving DecidableEq

/-- A resource slot of an object instance: a Single resource (fixed runtime
type chosen at construction from its initial value), a MultiResource (type
fixed when its first instance is added, `none` when empty) or a resource
with no `get_type` method (Executable, Block1, ...). -/
inductive Res
  | single (ty : Tag) (st : Stored)
  | multi (ty : Option Tag) (insts : List (Nat × Value))
  | exec
deriving DecidableEq

/-- An object instance: its `resources` dict keyed by resource id, in
insertion order. -/
abbrev ObjInst := List (Nat × Res)

/-- Python dict lookup on an association list. -/
def dictGet {α : Type} : List (Nat × α) → Nat → Option α
  | [], _ => none
  | (k0, v0) :: rest, k => if k0 = k then some v0 else dictGet rest k

/-- Python dict assignment: replace in place when the key exists, append
otherwise (dicts preserve insertion order). -/
def dictSet {α : Type} : List (Nat × α) → Nat → α → List (Nat × α)
  | [], k, v => [(k, v)]
  | (k0, v0) :: rest, k, v =>
    if k0 = k then (k0, v) :: rest else (k0, v0) :: dictSet rest k v

/-- `get_type()` on a resource slot: a Single returns its fixed type, a
MultiResource returns `self._type` (possibly `None`, which makes
`decode_value` raise), and an Executable or Block1 resource has no such
method at all (AttributeError); both failures are folded into `none` since
`update_object` catches every exception alike. -/
def Res.py_type : Res → Option Tag
  | .single ty _ => some ty
  | .multi ty _ => ty
  | .exec => none

/-- A decoded update for one resource of an object instance, as accumulated
in the `resources` dict of `TlvDecoder.update_object`. -/
inductive ResUpdate
  | val (v : Value)
  | minsts (l : List (Nat × Value))
deriving DecidableEq

/-- `TlvDecoder.decode_multi_resource` (tlv.py lines 249..259): decode all
RESOURCE_INSTANCE TLVs of a multi-resource payload.  The source passes
`payload` — the remainder of the enclosing payload after this TLV — to
`decode_value` instead of the instance's `value_bytes`; the embedding keeps
that slip.  `fuel` bounds the iteration count; each step strictly consumes
payload, so any fuel at least the payload length gives the loop's semantics
(`decode_multi_resource_fuel`). -/
def decode_multi_resource (ty : Tag) :
    Nat → List Nat → List (Nat × Value) → Option (List (Nat × Value))
  | _, [], acc => some acc
  | 0, _ :: _, _ => none
  | fuel + 1, b :: t, acc =>
    match decode_tlv (b :: t) with
    | none => none
    | some (k, inst, _valueBytes, rest) =>
      if k ≠ TlvType.RESOURCE_INSTANCE.val then none
      else
        match decode_value ty rest with
        | none => none
        | some v => decode_multi_resource ty fuel rest (dictSet acc inst v)

/-- Decode loop of `TlvDecoder.update_object` (tlv.py lines 292..307):
validate and decode every item before any mutation, skipping resource ids
that are not present in the instance.  `none` models any exception raised
while decoding (unknown TLV kind, missing or `None` resource type, value
that does not decode).  `fuel` as in `decode_multi_resource`. -/
def decode_obj_items (obj : ObjInst) :
    Nat → List Nat → List (Nat × ResUpdate) → Option (List (Nat × ResUpdate))
  | _, [], acc => some acc
  | 0, _ :: _, _ => none
  | fuel + 1, b :: t, acc =>
    match decode_tlv (b :: t) with
    | none => none
    | some (k, resId, valueBytes, rest) =>
      match dictGet obj resId with
      | none => decode_obj_items obj fuel rest acc
      | some r =>
        match r.py_type with
        | none => none
        | some ty =>
          if k = TlvType.RESOURCE_VALUE.val then
            match decode_value ty valueBytes with
            | none => none
            | some v => decode_obj_items obj fuel rest (dictSet acc resId (.val v))
          else if k = TlvType.MULTIPLE_RESOURCE.val then
            match decode_multi_resource ty valueBytes.length valueBytes [] with
            | none => none
            | some l => decode_obj_items obj fuel rest (dictSet acc resId (.minsts l))
          else none

/-- `LwM2MMultiResource.update` (resource.py lines 158..164): set the value
of each existing resource instance and create the missing ones — on the
value map this is a dict update for every decoded instance. -/
def multiUpdate (insts l : List (Nat × Value)) : List (Nat × Value) :=
  l.foldl (fun acc p => dictSet acc p.1 p.2) insts

/-- Apply phase of `TlvDecoder.update_object` (`obj_inst.update(resources)`,
object.py lines 92..95): update each target in dict order.  A Single
resource's `update` assigns whatever it is given; a MultiResource's `update`
iterates `newval.items()`, which raises AttributeError when the decoded
update is a scalar — the pair's Bool is false when that exception interrupts
the loop, leaving the earlier updates applied. -/
def applyUpdates : ObjInst → List (Nat × ResUpdate) → ObjInst × Bool
  | obj, [] => (obj, true)
  | obj, (rid, u) :: rest =>
    match dictGet obj rid, u with
    | some (.single ty _), .val v =>
      applyUpdates (dictSet obj rid (.single ty (.val v))) rest
    | some (.single ty _), .minsts l =>
      applyUpdates (dictSet obj rid (.single ty (.insts l))) rest
    | some (.multi ty insts), .minsts l =>
      applyUpdates (dictSet obj rid (.multi ty (multiUpdate insts l))) rest
    | _, _ => (obj, false)

/-- `TlvDecoder.update_object` (tlv.py lines 284..313): NOT_ACCEPTABLE for a
non-TLV content format; otherwise decode every item (no mutation), then
apply; any exception — in the decode loop or in the apply loop — yields
BAD_REQUEST, with whatever the apply loop already mutated. -/
def update_object (req : WriteReq) (obj : ObjInst) : Code × ObjInst :=
  if req.content_format ≠ MediaTypeTLV then (.NOT_ACCEPTABLE, obj)
  else
    match decode_obj_items obj req.payload.length req.payload [] with
    | none => (.BAD_REQUEST, obj)
    | some us =>
      match applyUpdates obj us with
      | (obj2, true) => (.CHANGED, obj2)
      | (obj2, false) => (.BAD_REQUEST, obj2)

/-- `TlvDecoder.update_resource_value` (tlv.py lines 223..247), generic over
the target resource's interface (`get_id`, `get_type`, `update`), as the
source duck-types it.  `none` models the NameError raised on the
invalid-kind branch, whose log line interpolates the undefined name `_type`
outside any try block. -/
def update_resource_value {σ : Type} (req : WriteReq) (resId : Nat) (ty : Tag)
    (upd : σ → Value → σ) (st : σ) : Option (Code × σ) :=
  if req.content_format ≠ MediaTypeTLV then some (.NOT_ACCEPTABLE, st)
  else
    match decode_tlv req.payload with
    | none => some (.BAD_REQUEST, st)
    | some (k, i, valueBytes, _) =>
      if k ≠ TlvType.RESOURCE_VALUE.val then none
      else if i ≠ resId then some (.BAD_REQUEST, st)
      else
        match decode_value ty valueBytes with
        | none => some (.BAD_REQUEST, st)
        | some v => some (.CHANGED, upd st v)

/-- A Single resource as `update_resource_value` sees it through
`LwM2MResourceValue`: id, fixed type, stored value. -/
structure SingleRes where
  res_id : Nat
  ty : Tag
  st : Stored
deriving DecidableEq

/-- `LwM2MResourceValue.render_put`/`render_post`: a TLV write to a Single
resource, whose `update` assigns the decoded value. -/
def render_put_single (req : WriteReq) (res : SingleRes) : Option (Code × SingleRes) :=
  update_resource_value req res.res_id res.ty
    (fun r v => { r with st := Stored.val v }) res

/-- A MultiResource as `update_multi_resource` sees it. -/
structure MultiRes where
  res_id : Nat
  ty : Option Tag
  insts : List (Nat × Value)
deriving DecidableEq

/-- Outcome of `TlvDecoder.update_multi_resource`: a response message, or an
exception escaping the handler. -/
inductive MultiOutcome
  | msg (code : Code) (res : MultiRes)
  | raised
deriving DecidableEq

/-- `TlvDecoder.update_multi_resource` (tlv.py lines 261..282).  A non-TLV
content format raises outside any try block.  Inside the try block the
source destructures the 4-tuple returned by `decode_tlv` into three names
(`tlv_type, id, inst_payload = TlvDecoder.decode_tlv(request.payload)`),
which raises ValueError on every payload — and `decode_tlv` itself raises
IndexError on an empty one — so the bare `except` returns BAD_REQUEST on
every TLV request and lines 270..282 are unreachable. -/
def update_multi_resource (req : WriteReq) (res : MultiRes) : MultiOutcome :=
  if req.content_format ≠ MediaTypeTLV then .raised
  else .msg .BAD_REQUEST res

/-- Shape of a resource slot: 0 for a Single, 1 for a MultiResource, 2 for
anything else (missing, Executable, ...). -/
def resShape : Option Res → Nat
  | some (.single _ _) => 0
  | some (.multi _ _) => 1
  | _ => 2

/-- Whether a decoded update is a multi-instance dict. -/
def ResUpdate.isMinsts : ResUpdate → Bool
  | .val _ => false
  | .minsts _ => true

/-- Every decoded update is kind-consistent with its target: scalar or dict
for a Single (its `update` assigns either), a dict for a MultiResource
(whose `update` iterates `.items()`). -/
def KindsMatch (obj : ObjInst) (us : List (Nat × ResUpdate)) : Prop :=
  ∀ p ∈ us, resShape (dictGet obj p.1) = 0 ∨
    (resShape (dictGet obj p.1) = 1 ∧ p.2.isMinsts = true)

instance (obj : ObjInst) (us : List (Nat × ResUpdate)) : Decidable (KindsMatch obj us) := by
  unfold KindsMatch
  infer_instance

theorem dictGet_dictSet {α : Type} (l : List (Nat × α)) (k j : Nat) (v : α) :
    dictGet (dictSet l k v) j = if k = j then some v else dictGet l j := by
  induction l with
  | nil =>
    simp only [dictSet, dictGet]
  | cons p rest ih =>
    obtain ⟨k0, v0⟩ := p
    by_cases hk : k0 = k
    · subst hk
      by_cases hj : k0 = j <;> simp [dictSet, dictGet, hj]
    · by_cases hj : k0 = j
      · subst hj
        have hkj : ¬k = k0 := fun hh => hk hh.symm
        simp [dictSet, hk, dictGet, hkj]
      · simp [dictSet, hk, dictGet, hj, ih]

theorem decode_tlv_rest_length {b : Nat} {t : List Nat} {k i : Nat}
    {v r : List Nat} (h : decode_tlv (b :: t) = some (k, i, v, r)) :
    v.length + r.length ≤ t.length := by
  simp only [decode_tlv, Option.some.injEq, Prod.mk.injEq] at h
  obtain ⟨-, -, hv, hr⟩ := h
  subst hv hr
  have h1 : ∀ (l : List Nat) (n m : Nat),
      ((l.drop n).take m).length + ((l.drop n).drop m).length ≤ l.length := by
    intro l n m
    simp [List.length_take, List.length_drop]
    omega
  split_ifs <;>
    simp only [List.length_take, List.length_drop, List.length_cons] <;>
    omega

theorem decode_multi_resource_fuel (ty : Tag) :
    ∀ f1 f2 p acc, p.length ≤ f1 → p.length ≤ f2 →
      decode_multi_resource ty f1 p acc = decode_multi_resource ty f2 p acc := by
  intro f1
  induction f1 with
  | zero =>
    intro f2 p acc h1 _
    have : p = [] := by
      cases p with
      | nil => rfl
      | cons a l => simp at h1
    subst this
    cases f2 <;> rfl
  | succ f1 ih =>
    intro f2 p acc h1 h2
    cases p with
    | nil => cases f2 <;> rfl
    | cons b t =>
      cases f2 with
      | zero => simp at h2
      | succ f2 =>
        simp only [List.length_cons] at h1 h2
        simp only [decode_multi_resource]
        cases hd : decode_tlv (b :: t) with
        | none => rfl
        | some tup =>
          obtain ⟨k, inst, vb, rest⟩ := tup
          have hrest : rest.length ≤ t.length := by
            have := decode_tlv_rest_length hd
            omega
          dsimp only
          split
          · rfl
          · cases decode_value ty rest with
            | none => rfl
            | some v => exact ih f2 rest _ (by omega) (by omega)

theorem decode_obj_items_fuel (obj : ObjInst) :
    ∀ f1 f2 p acc, p.length ≤ f1 → p.length ≤ f2 →
      decode_obj_items obj f1 p acc = decode_obj_items obj f2 p acc := by
  intro f1
  induction f1 with
  | zero =>
    intro f2 p acc h1 _
    have : p = [] := by
      cases p with
      | nil => rfl
      | cons a l => simp at h1
    subst this
    cases f2 <;> rfl
  | succ f1 ih =>
    intro f2 p acc h1 h2
    cases p with
    | nil => cases f2 <;> rfl
    | cons b t =>
      cases f2 with
      | zero => simp at h2
      | succ f2 =>
        simp only [List.length_cons] at h1 h2
        simp only [decode_obj_items]
        cases hd : decode_tlv (b :: t) with
        | none => rfl
        | some tup =>
          obtain ⟨k, resId, vb, rest⟩ := tup
          have hrest : rest.length ≤ t.length := by
            have := decode_tlv_rest_length hd
            omega
          dsimp only
          cases dictGet obj resId with
          | none => exact ih f2 rest _ (by omega) (by omega)
          | some r =>
            dsimp only
            cases r.py_type with
            | none => rfl
            | some ty =>
              dsimp only
              split
              · cases decode_value ty vb with
                | none => rfl
                | some v => exact ih f2 rest _ (by omega) (by omega)
              · split
                · cases decode_multi_resource ty vb.length vb [] with
                  | none => rfl
                  | some l => exact ih f2 rest _ (by omega) (by omega)
                · rfl

theorem applyUpdates_ok (us : List (Nat × ResUpdate)) :
    ∀ obj, KindsMatch obj us → (applyUpdates obj us).2 = true := by
  induction us with
  | nil =>
    intro obj _
    rfl
  | cons p rest ih =>
    intro obj h
    obtain ⟨rid, u⟩ := p
    have hp := h (rid, u) (List.mem_cons_self _ _)
    simp only at hp
    have htail : ∀ r2 : Res, resShape (some r2) = resShape (dictGet obj rid) →
        KindsMatch (dictSet obj rid r2) rest := by
      intro r2 hs q hq
      have hq2 := h q (List.mem_cons_of_mem _ hq)
      rw [dictGet_dictSet]
      by_cases he : rid = q.1
      · rw [if_pos he, hs, he]
        exact hq2
      · rw [if_neg he]
        exact hq2
    cases hg : dictGet obj rid with
    | none =>
      rw [hg] at hp
      rcases hp with h0 | ⟨h1, -⟩
      · simp [resShape] at h0
      · simp [resShape] at h1
    | some r =>
      rw [hg] at hp
      cases r with
      | single ty st =>
        cases u with
        | val v =>
          simp only [applyUpdates, hg]
          exact ih _ (htail _ (by rw [hg]; rfl))
        | minsts l =>
          simp only [applyUpdates, hg]
          exact ih _ (htail _ (by rw [hg]; rfl))
      | multi ty insts =>
        cases u with
        | val v =>
          exfalso
          rcases hp with h0 | ⟨-, h1⟩
          · simp [resShape] at h0
          · simp [ResUpdate.isMinsts] at h1
        | minsts l =>
          simp only [applyUpdates, hg]
          exact ih _ (htail _ (by rw [hg]; rfl))
      | exec =>
        rcases hp with h0 | ⟨h1, -⟩
        · simp [resShape] at h0
        · simp [resShape] at h1

/-- Claim C2 (amended): a TLV write to an object instance decodes every item
before any mutation — a decode failure returns BAD_REQUEST with the instance
untouched; an item whose resource id is not in the instance is skipped; and
when every item decodes and each decoded update is kind-consistent with its
target resource, all updates are applied and CHANGED is returned. -/
theorem update_object_spec (req : WriteReq) (obj : ObjInst)
    (hcf : req.content_format = MediaTypeTLV) :
    (decode_obj_items obj req.payload.length req.payload [] = none →
      update_object req obj = (.BAD_REQUEST, obj)) ∧
    (∀ us, decode_obj_items obj req.payload.length req.payload [] = some us →
      KindsMatch obj us →
      update_object req obj = (.CHANGED, (applyUpdates obj us).1) ∧
      (applyUpdates obj us).2 = true) ∧
    (∀ fuel acc b t k i vb r, decode_tlv (b :: t) = some (k, i, vb, r) →
      dictGet obj i = none →
      decode_obj_items obj (fuel + 1) (b :: t) acc = decode_obj_items obj fuel r acc) := by
  refine ⟨?_, ?_, ?_⟩
  · intro h
    simp [update_object, hcf, h]
  · intro us hdec hkm
    have hok := applyUpdates_ok us obj hkm
    refine ⟨?_, hok⟩
    rcases hA : applyUpdates obj us with ⟨obj2, ok⟩
    rw [hA] at hok
    simp only at hok
    subst hok
    simp [update_object, hcf, hdec, hA]
  · intro fuel acc b t k i vb r hd hg
    simp only [decode_obj_items, hd, hg]

/-- Witness for claim C2: a well-formed single-item write to an instance
holding one Integer resource is decoded and applied, returning CHANGED. -/
theorem update_object_spec_witness :
    update_object ⟨11542, [0xC1, 1, 1]⟩ [(1, Res.single .int (.val (.vint 5)))] =
      (.CHANGED, [(1, Res.single .int (.val (.vint 1)))]) := by
  have h := (update_object_spec ⟨11542, [0xC1, 1, 1]⟩
      [(1, Res.single .int (.val (.vint 5)))] rfl).2.1
      [(1, ResUpdate.val (.vint 1))] (by decide) (by decide)
  rw [h.1]
  decide

/-- Counterexample to claim C2 as stated: in an instance with a Single
Integer resource 1 and a MultiResource 2, the payload RESOURCE_VALUE(1)=1,
RESOURCE_VALUE(2)=2 decodes completely (no item fails, no id is unknown),
yet the write returns BAD_REQUEST — `LwM2MMultiResource.update(2)` raises on
`.items()` — after resource 1 was already mutated: the update is neither
applied in full nor atomic. -/
theorem update_object_counterexample :
    decode_obj_items
      [(1, Res.single .int (.val (.vint 5))), (2, Res.multi (some .int) [(0, .vint 7)])]
      6 [0xC1, 1, 1, 0xC1, 2, 2] [] =
      some [(1, ResUpdate.val (.vint 1)), (2, ResUpdate.val (.vint 2))] ∧
    update_object ⟨11542, [0xC1, 1, 1, 0xC1, 2, 2]⟩
      [(1, Res.single .int (.val (.vint 5))), (2, Res.multi (some .int) [(0, .vint 7)])] =
      (.BAD_REQUEST,
        [(1, Res.single .int (.val (.vint 1))), (2, Res.multi (some .int) [(0, .vint 7)])]) ∧
    [(1, Res.single .int (.val (.vint 1))), (2, Res.multi (some .int) [(0, .vint 7)])] ≠
      [(1, Res.single .int (.val (.vint 5))), (2, Res.multi (some .int) [(0, .vint 7)])] :=
  ⟨by decide, by decide, by decide⟩

/-- Claim C3: the multi-resource write handler returns BAD_REQUEST, with no
mutation, for every request in TLV content format — the three-name tuple
unpacking of `decode_tlv`'s 4-tuple raises ValueError inside the try block
on every payload, so the decode-and-update body is dead code. -/
theorem update_multi_resource_always_bad_request (req : WriteReq) (res : MultiRes)
    (hcf : req.content_format = MediaTypeTLV) :
    update_multi_resource req res = .msg .BAD_REQUEST res := by
  simp [update_multi_resource, hcf]

/-- Witness for claim C3 at the failing input: a well-formed
MULTIPLE_RESOURCE TLV for resource 0 carrying RESOURCE_INSTANCE 0 with
Integer value 1, which per the claim should return CHANGED and update the
instance, is answered with BAD_REQUEST and no mutation. -/
theorem update_multi_resource_witness :
    update_multi_resource ⟨11542, [0x83, 0, 0x41, 0, 1]⟩ ⟨0, some .int, [(0, .vint 0)]⟩ =
      .msg .BAD_REQUEST ⟨0, some .int, [(0, .vint 0)]⟩ :=
  update_multi_resource_always_bad_request _ _ rfl

/-- Claim C4 (amended): a RESOURCE_VALUE write whose value bytes do not
decode under the resource's fixed runtime type is rejected with BAD_REQUEST
and the stored value is unchanged.  (TLV value bytes carry no variant tag,
so a write is rejected exactly when decoding under the target type fails —
not whenever the bytes were produced from a different variant.) -/
theorem write_undecodable_rejected (req : WriteReq) (res : SingleRes)
    (vb r : List Nat)
    (hcf : req.content_format = MediaTypeTLV)
    (hdec : decode_tlv req.payload =
      some (TlvType.RESOURCE_VALUE.val, res.res_id, vb, r))
    (hval : decode_value res.ty vb = none) :
    render_put_single req res = some (.BAD_REQUEST, res) := by
  simp [render_put_single, update_resource_value, hcf, hdec, hval, TlvType.val]

/-- Witness for claim C4: a 1-byte value written to a Float resource does
not decode (float fields must be 4 or 8 bytes) and is rejected unchanged. -/
theorem write_undecodable_rejected_witness :
    render_put_single ⟨11542, [0xC1, 7, 9]⟩ ⟨7, .float, .val (.vfloat 0)⟩ =
      some (.BAD_REQUEST, ⟨7, .float, .val (.vfloat 0)⟩) :=
  write_undecodable_rejected ⟨11542, [0xC1, 7, 9]⟩ ⟨7, .float, .val (.vfloat 0)⟩
    [9] [] rfl (by decide) (by decide)

/-- Counterexample to claim C4 as stated: the byte 0x01 is the encoding of
the Boolean value True — a different variant from the resource's Integer —
yet a RESOURCE_VALUE write carrying it to an Integer resource is accepted
with CHANGED and overwrites the stored value with 1, not rejected with
BAD_REQUEST. -/
theorem write_variant_mismatch_counterexample :
    encode_value (Value.vbool true) = [1] ∧
    render_put_single ⟨11542, [0xC1, 5, 1]⟩ ⟨5, .int, .val (.vint 5)⟩ =
      some (.CHANGED, ⟨5, .int, .val (.vint 1)⟩) :=
  ⟨by decide, by decide⟩

/-- Claim C5 (amended): `decode_tlv` fails only on empty input (the
IndexError from `_bytes[0]`); every nonempty input decodes successfully —
when the declared length exceeds the remaining payload the value bytes are
silently truncated to what is available.  No `MalformedTLV` error exists in
the code base. -/
theorem decode_tlv_total (bs : List Nat) (h : bs ≠ []) :
    decode_tlv [] = none ∧
    ∃ k i v r, decode_tlv bs = some (k, i, v, r) ∧
      v.length + r.length < bs.length := by
  refine ⟨rfl, ?_⟩
  cases bs with
  | nil => exact absurd rfl h
  | cons b t =>
    refine ⟨_, _, _, _, rfl, ?_⟩
    have := decode_tlv_rest_length (b := b) (t := t) rfl
    simp only [List.length_cons]
    omega

/-- Witness for claim C5 on a well-formed one-byte-value TLV. -/
theorem decode_tlv_total_witness :
    decode_tlv [] = none ∧
    ∃ k i v r, decode_tlv [0xC1, 0, 1] = some (k, i, v, r) ∧
      v.length + r.length < ([0xC1, 0, 1] : List Nat).length :=
  decode_tlv_total [0xC1, 0, 1] (by decide)

/-- Counterexample to claim C5 as stated: a RESOURCE_VALUE header declaring
a 3-byte value followed by a single byte decodes successfully — kind 0xC0,
id 0, value bytes truncated to the one available byte, empty remainder —
instead of failing with MalformedTLV. -/
theorem decode_tlv_truncation_counterexample :
    decode_tlv [0xC3, 0, 0x41] = some (192, 0, [0x41], []) := by decide

/-! ## Observation fan-out (src/lwm2m/resource.py, object.py)

A Single resource wired into an object instance and a base object:
`add_resource` sets the resource's `notify_cb` to the instance's
`resource_changed`, and `add_obj_inst` sets the instance's `notify_cb` to the
base object's `inst_changed`.  Each `updated_state` call pushes one
notification to that node's subscribers; the state records them in order. -/

/-- Observe notifications, by the node whose `updated_state` fired. -/
inductive Note
  | resNote
  | instNote
  | baseNote
deriving DecidableEq

/-- State of one observed Single resource inside its instance and base
object: the stored value, the three observe flags, and the notifications
emitted so far. -/
structure ObsState where
  value : Value
  res_observe : Bool
  inst_observe : Bool
  base_observe : Bool
  notes : List Note
deriving DecidableEq

/-- `LwM2MBaseObject.inst_changed` (object.py lines 138..140). -/
def inst_changed (st : ObsState) : ObsState :=
  if st.base_observe then { st with notes := st.notes ++ [.baseNote] } else st

/-- `LwM2MObjectInst.resource_changed` (object.py lines 70..74): notify the
instance's subscribers, then the base object via `notify_cb`. -/
def resource_changed (st : ObsState) : ObsState :=
  inst_changed
    (if st.inst_observe then { st with notes := st.notes ++ [.instNote] } else st)

/-- `LwM2MResourceValue.set_value` (resource.py lines 47..50 and 73..77):
assign the value, fire `notify_cb` (the owning instance's
`resource_changed`), then notify the resource's own subscribers. -/
def set_value (st : ObsState) (v : Value) : ObsState :=
  let st1 := resource_changed { st with value := v }
  if st1.res_observe then { st1 with notes := st1.notes ++ [.resNote] } else st1

/-- `LwM2MResourceBase.update` (resource.py lines 60..63), the CoAP write
path: assign the value and invoke `value_written_cb` — nothing else. -/
def update_value (st : ObsState) (v : Value) : ObsState :=
  { st with value := v }

/-- `render_put`/`render_post` of a Single resource acting on an observed
state: `TlvDecoder.update_resource_value` with `update` as the mutator. -/
def render_put_observed (req : WriteReq) (resId : Nat) (ty : Tag)
    (st : ObsState) : Option (Code × ObsState) :=
  update_resource_value req resId ty update_value st

/-- Claim C6 (amended): a CoAP write to a Single resource (the `update`
path) never notifies any subscriber — the emitted-notification list is
unchanged whatever the outcome; the resource / owning-instance /
base-object fan-out happens only on `set_value` (local, adapter-driven
changes), which notifies exactly the subscribed levels, in the order
instance, base object, resource. -/
theorem observation_fanout (st : ObsState) (v : Value) (req : WriteReq)
    (resId : Nat) (ty : Tag) (code : Code) (st2 : ObsState)
    (hw : render_put_observed req resId ty st = some (code, st2)) :
    st2.notes = st.notes ∧
    (set_value st v).notes = st.notes ++
      ((if st.inst_observe then [Note.instNote] else []) ++
       ((if st.base_observe then [Note.baseNote] else []) ++
        (if st.res_observe then [Note.resNote] else []))) := by
  constructor
  · simp only [render_put_observed, update_resource_value] at hw
    split_ifs at hw with h1
    · simp only [Option.some.injEq, Prod.mk.injEq] at hw
      rw [← hw.2]
    · cases hd : decode_tlv req.payload with
      | none =>
        rw [hd] at hw
        simp only [Option.some.injEq, Prod.mk.injEq] at hw
        rw [← hw.2]
      | some tup =>
        obtain ⟨k, i, vb, r⟩ := tup
        rw [hd] at hw
        dsimp only at hw
        split_ifs at hw with h2 h3
        · simp only [Option.some.injEq, Prod.mk.injEq] at hw
          rw [← hw.2]
        · cases hv : decode_value ty vb with
          | none =>
            rw [hv] at hw
            simp only [Option.some.injEq, Prod.mk.injEq] at hw
            rw [← hw.2]
          | some v2 =>
            rw [hv] at hw
            simp only [Option.some.injEq, Prod.mk.injEq] at hw
            rw [← hw.2]
            rfl
  · simp only [set_value, resource_changed, inst_changed]
    split_ifs <;> simp_all

/-- Witness for claim C6: a successful TLV write to an instance-observed
resource leaves the notification list empty, and a `set_value` on the same
state emits exactly the instance-level notification. -/
theorem observation_fanout_witness :
    (⟨Value.vint 7, false, true, false, []⟩ : ObsState).notes =
      (⟨Value.vint 0, false, true, false, []⟩ : ObsState).notes ∧
    (set_value ⟨Value.vint 0, false, true, false, []⟩ (Value.vint 7)).notes =
      (⟨Value.vint 0, false, true, false, []⟩ : ObsState).notes ++
      ((if (⟨Value.vint 0, false, true, false, []⟩ : ObsState).inst_observe
          then [Note.instNote] else []) ++
       ((if (⟨Value.vint 0, false, true, false, []⟩ : ObsState).base_observe
          then [Note.baseNote] else []) ++
        (if (⟨Value.vint 0, false, true, false, []⟩ : ObsState).res_observe
          then [Note.resNote] else []))) :=
  observation_fanout ⟨Value.vint 0, false, true, false, []⟩ (Value.vint 7)
    ⟨11542, [0xC1, 13, 7]⟩ 13 .int .CHANGED ⟨Value.vint 7, false, true, false, []⟩
    (by decide)

/-- Counterexample to claim C6 as stated: with a subscriber on the owning
object instance (the `/3/0` observation), one successful CoAP write to the
resource (`/3/0/13`) returns CHANGED and mutates the value but emits zero
notifications — not exactly one — because `LwM2MResourceBase.update` never
calls `set_value` or any `updated_state`. -/
theorem observation_fanout_counterexample :
    render_put_observed ⟨11542, [0xC1, 13, 7]⟩ 13 .int
      ⟨Value.vint 0, false, true, false, []⟩ =
      some (.CHANGED, ⟨Value.vint 7, false, true, false, []⟩) ∧
    (⟨Value.vint 7, false, true, false, []⟩ : ObsState).notes = [] :=
  ⟨by decide, by decide⟩

/-! ## Block1 uploads (src/lwm2m/block.py) -/

/-- A CoAP Block1 option: block number, more flag, size exponent.  aiocoap's
`BlockwiseTuple.size` is the derived value `2 ** (size_exponent + 4)`. -/
structure BlockOpt where
  block_number : Nat
  more : Bool
  size_exponent : Nat
deriving DecidableEq

/-- A request as `LwM2MBlock1Resource.handle_blockwise` sees it. -/
structure BlockReq where
  content_format : Nat
  payload : List Nat
  block1 : Option BlockOpt
deriving DecidableEq

/-- State of a `LwM2MBlock1FileResource`: the last accepted block number,
whether the destination file is open, its accumulated contents, and the
byte counter. -/
structure Block1St where
  last_block_number : Option Nat
  file_open : Bool
  file_data : List Nat
  total_bytes : Nat
deriving DecidableEq

/-- Outcome of `handle_blockwise`: a response (code plus optional Block1
option) with the updated state, or an exception escaping the handler
(`raised` abstracts from the partial mutation the Python object keeps in
that case — a reopened file or an assigned block counter — which no path
examined here consults afterwards). -/
inductive BlockOutcome
  | msg (code : Code) (resp_block1 : Option BlockOpt) (st : Block1St)
  | raised
deriving DecidableEq

/-- `LwM2MBlock1FileResource.start_payload` (block.py lines 118..126):
(re)open the destination file for writing, truncating it. -/
def start_payload (st : Block1St) : Block1St :=
  { st with file_open := true, file_data := [], total_bytes := 0 }

/-- `LwM2MBlock1FileResource.handle_payload` (block.py lines 128..137):
append the payload to the open file; close it after the final block.
Writing with no open file is the AttributeError on `self.f`, hence `none`. -/
def handle_payload (st : Block1St) (payload : List Nat) (more : Bool) :
    Option Block1St :=
  if st.file_open then
    let st1 := { st with file_data := st.file_data ++ payload,
                         total_bytes := st.total_bytes + payload.length }
    some (if more then st1 else { st1 with file_open := false })
  else none

/-- `LwM2MBlock1Resource.decode_payload` (block.py lines 92..97): for TLV
content the value bytes of the decoded TLV, otherwise the raw payload;
`none` is the IndexError `decode_tlv` raises on an empty TLV payload. -/
def block_decode_payload (req : BlockReq) : Option (List Nat) :=
  if req.content_format = MediaTypeTLV then
    (decode_tlv req.payload).map (fun x => x.2.2.1)
  else some req.payload

/-- `LwM2MBlock1Resource.handle_blockwise` (block.py lines 52..90) acting on
a file-backed resource.  Unreachable-in-sequence conditions raise:
comparing against `None + 1` when a non-zero block arrives first
(TypeError), and the invalid-size branch, whose `Codes.BAD_REQUEST` names an
unbound identifier (NameError) — `block1.size` always equals
`1 << (size_exponent + 4)` by construction, so only the payload-length test
can take that branch. -/
def handle_blockwise (resp_sz_exp : Nat) (req : BlockReq) (st : Block1St) :
    BlockOutcome :=
  if req.content_format ≠ MediaTypeOPAQUE ∧ req.content_format ≠ MediaTypeTLV then
    .msg .NOT_ACCEPTABLE none st
  else
    match req.block1 with
    | none =>
      let st1 := start_payload st
      match block_decode_payload req with
      | none => .raised
      | some p =>
        match handle_payload st1 p false with
        | none => .raised
        | some _st2 => .msg .CHANGED none _st2
    | some b1 =>
      match
        (if b1.block_number = 0 then some (some (start_payload st))
         else
           match st.last_block_number with
           | none => none
           | some last =>
             some (if b1.block_number = last + 1 then some st else none))
      with
      | none => .raised
      | some none => .msg .REQUEST_ENTITY_INCOMPLETE none st
      | some (some st0) =>
        let st1 := { st0 with last_block_number := some b1.block_number }
        if b1.more ∧ req.payload.length ≠ 2 ^ (b1.size_exponent + 4) then .raised
        else
          match block_decode_payload req with
          | none => .raised
          | some p =>
            match handle_payload st1 p b1.more with
            | none => .raised
            | some st2 =>
              if b1.more then
                .msg .CONTINUE (some ⟨b1.block_number, true, resp_sz_exp⟩) st2
              else .msg .CHANGED none st2

/-- Claim C7: a Block1 upload to a fresh file-backed resource with blocks
0, 1, 3 (each `more=true`, payload length equal to the block size) answers
CONTINUE, CONTINUE, REQUEST_ENTITY_INCOMPLETE; block 3 is rejected without
touching the state, so the destination file holds exactly the bytes of
blocks 0 and 1. -/
theorem block1_sequencing (resp_sz_exp szx : Nat) (p0 p1 p3 : List Nat)
    (h0 : p0.length = 2 ^ (szx + 4)) (h1 : p1.length = 2 ^ (szx + 4))
    (_h3 : p3.length = 2 ^ (szx + 4)) :
    handle_blockwise resp_sz_exp ⟨42, p0, some ⟨0, true, szx⟩⟩
      ⟨none, false, [], 0⟩ =
      .msg .CONTINUE (some ⟨0, true, resp_sz_exp⟩)
        ⟨some 0, true, p0, p0.length⟩ ∧
    handle_blockwise resp_sz_exp ⟨42, p1, some ⟨1, true, szx⟩⟩
      ⟨some 0, true, p0, p0.length⟩ =
      .msg .CONTINUE (some ⟨1, true, resp_sz_exp⟩)
        ⟨some 1, true, p0 ++ p1, p0.length + p1.length⟩ ∧
    handle_blockwise resp_sz_exp ⟨42, p3, some ⟨3, true, szx⟩⟩
      ⟨some 1, true, p0 ++ p1, p0.length + p1.length⟩ =
      .msg .REQUEST_ENTITY_INCOMPLETE none
        ⟨some 1, true, p0 ++ p1, p0.length + p1.length⟩ ∧
    (⟨some 1, true, p0 ++ p1, p0.length + p1.length⟩ : Block1St).file_data =
      p0 ++ p1 := by
  refine ⟨?_, ?_, ?_, rfl⟩
  · simp [handle_blockwise, start_payload, handle_payload, block_decode_payload,
      MediaTypeOPAQUE, MediaTypeTLV, h0]
  · simp [handle_blockwise, start_payload, handle_payload, block_decode_payload,
      MediaTypeOPAQUE, MediaTypeTLV, h1]
  · simp [handle_blockwise, MediaTypeOPAQUE, MediaTypeTLV]

/-- Witness for claim C7 with 16-byte blocks (size exponent 0). -/
theorem block1_sequencing_witness :
    handle_blockwise 6 ⟨42, List.replicate 16 10, some ⟨0, true, 0⟩⟩
      ⟨none, false, [], 0⟩ =
      .msg .CONTINUE (some ⟨0, true, 6⟩)
        ⟨some 0, true, List.replicate 16 10, (List.replicate 16 10).length⟩ ∧
    handle_blockwise 6 ⟨42, List.replicate 16 11, some ⟨1, true, 0⟩⟩
      ⟨some 0, true, List.replicate 16 10, (List.replicate 16 10).length⟩ =
      .msg .CONTINUE (some ⟨1, true, 6⟩)
        ⟨some 1, true, List.replicate 16 10 ++ List.replicate 16 11,
          (List.replicate 16 10).length + (List.replicate 16 11).length⟩ ∧
    handle_blockwise 6 ⟨42, List.replicate 16 13, some ⟨3, true, 0⟩⟩
      ⟨some 1, true, List.replicate 16 10 ++ List.replicate 16 11,
        (List.replicate 16 10).length + (List.replicate 16 11).length⟩ =
      .msg .REQUEST_ENTITY_INCOMPLETE none
        ⟨some 1, true, List.replicate 16 10 ++ List.replicate 16 11,
          (List.replicate 16 10).length + (List.replicate 16 11).length⟩ ∧
    (⟨some 1, true, List.replicate 16 10 ++ List.replicate 16 11,
        (List.replicate 16 10).length + (List.replicate 16 11).length⟩ :
      Block1St).file_data =
      List.replicate 16 10 ++ List.replicate 16 11 :=
  block1_sequencing 6 0 (List.replicate 16 10) (List.replicate 16 11)
    (List.replicate 16 13) (by decide) (by decide) (by decide)

/-! ## Registration driver (src/lwm2m/client.py) -/

/-- Client registration state: the configured lifetime, endpoint name,
binding mode, the `/rd` location token captured at initial registration, and
the current object links. -/
structure RegState where
  lifetime : Nat
  endpoint : String
  binding_mode : String
  rd_resource : String
  links : List String
deriving DecidableEq

/-- The CoAP request `LwM2MClient.register` sends: Uri-Path, Uri-Query and
the optional link payload. -/
structure RegRequest where
  uri_path : List String
  uri_query : List String
  payload : Option String
deriving DecidableEq

/-- Request construction in `LwM2MClient.register` (client.py lines
159..176). -/
def register_request (st : RegState) (is_update update_objects : Bool) :
    RegRequest :=
  { uri_path :=
      if is_update || update_objects then ["rd", st.rd_resource] else ["rd"]
    uri_query :=
      if !is_update then
        ["ep=" ++ st.endpoint, "b=" ++ st.binding_mode,
         "lt=" ++ toString st.lifetime, "lwm2m=1.0"]
      else []
    payload :=
      if update_objects || !is_update then
        some (String.intercalate "," st.links)
      else none }

/-- `Code.is_successful` of aiocoap on the integer code (class 2, i.e.
2.00 ≤ code < 3.00). -/
def code_is_successful (code : Nat) : Bool := 64 ≤ code && code < 96

/-- Response handling of `LwM2MClient.register` (client.py lines 177..187):
a non-2.xx response raises BaseException; an initial registration records
`Location-Path[1]` as the registration resource (IndexError when absent). -/
def register_result (st : RegState) (is_update : Bool) (resp_code : Nat)
    (resp_location : List String) : Except String RegState :=
  if !code_is_successful resp_code then .error "unexpected code received"
  else if !is_update then
    match resp_location with
    | _ :: tok :: _ => .ok { st with rd_resource := tok }
    | _ => .error "IndexError"
  else .ok st

/-- Outcome of one iteration of the while-loop in
`LwM2MClient.registration_task`. -/
inductive RegTaskStep
  | refreshed (timeout_used : Nat) (req : RegRequest) (st : RegState)
  | reregistered (req : RegRequest) (st : RegState)
  | failed (err : String)
deriving DecidableEq

/-- One iteration of `LwM2MClient.registration_task` (client.py lines
194..205): `asyncio.wait_for(self.register_event.wait(), self.lifetime)` —
the timeout is the full `self.lifetime` — then either a topology-driven
re-register (`register(True, True)`) when the event fired, or a plain
refresh (`register(True, False)`) on timeout.  An exception from `register`
is not caught and terminates the task. -/
def registration_task_step (st : RegState) (event_fired : Bool)
    (resp_code : Nat) (resp_location : List String) : RegTaskStep :=
  if event_fired then
    match register_result st true resp_code resp_location with
    | .error e => .failed e
    | .ok st2 => .reregistered (register_request st true true) st2
  else
    match register_result st true resp_code resp_location with
    | .error e => .failed e
    | .ok st2 => .refreshed st.lifetime (register_request st true false) st2

/-- Claim C8 (amended): with no topology-change signal and a successful
response, the refresh loop waits the full `lifetime` seconds (the timeout
handed to `wait_for` is `self.lifetime`, not `lifetime - 1`) and then sends
`POST /rd/<token>` with neither query nor payload. -/
theorem registration_refresh_period (st : RegState) (resp_code : Nat)
    (loc : List String) (h : code_is_successful resp_code = true) :
    registration_task_step st false resp_code loc =
      .refreshed st.lifetime (register_request st true false) st ∧
    (register_request st true false).uri_path = ["rd", st.rd_resource] ∧
    (register_request st true false).uri_query = [] ∧
    (register_request st true false).payload = none := by
  refine ⟨?_, rfl, rfl, rfl⟩
  simp [registration_task_step, register_result, h]

/-- Witness for claim C8 at lifetime 60 and response 2.04 (code 68). -/
theorem registration_refresh_period_witness :
    registration_task_step ⟨60, "ep", "U", "tok", []⟩ false 68 [] =
      .refreshed 60 (register_request ⟨60, "ep", "U", "tok", []⟩ true false)
        ⟨60, "ep", "U", "tok", []⟩ ∧
    (register_request ⟨60, "ep", "U", "tok", []⟩ true false).uri_path =
      ["rd", "tok"] ∧
    (register_request ⟨60, "ep", "U", "tok", []⟩ true false).uri_query = [] ∧
    (register_request ⟨60, "ep", "U", "tok", []⟩ true false).payload = none :=
  registration_refresh_period ⟨60, "ep", "U", "tok", []⟩ 68 [] (by decide)

/-- Counterexample to claim C8 as stated: with lifetime 60 the timeout
passed to `wait_for` before the refresh POST is 60 seconds, not 59. -/
theorem registration_refresh_period_counterexample :
    registration_task_step ⟨60, "ep", "U", "tok", []⟩ false 68 [] =
      .refreshed 60 (register_request ⟨60, "ep", "U", "tok", []⟩ true false)
        ⟨60, "ep", "U", "tok", []⟩ ∧
    (60 : Nat) ≠ 59 :=
  ⟨by decide, by decide⟩

/-- Claim C9 (amended): a non-2.xx response to the registration update makes
`register` raise BaseException, which `registration_task` does not catch:
the task terminates with the error — no fresh initial registration is
attempted. -/
theorem registration_update_failure (st : RegState) (ev : Bool)
    (resp_code : Nat) (loc : List String)
    (h : code_is_successful resp_code = false) :
    registration_task_step st ev resp_code loc =
      .failed "unexpected code received" := by
  cases ev <;> simp [registration_task_step, register_result, h]

/-- Witness for claim C9 at response 5.00 (code 160). -/
theorem registration_update_failure_witness :
    registration_task_step ⟨60, "ep", "U", "tok", []⟩ false 160 [] =
      .failed "unexpected code received" :=
  registration_update_failure ⟨60, "ep", "U", "tok", []⟩ false 160 [] (by decide)

/-- Counterexample to claim C9 as stated: on a 4.04 NotFound response
(code 132) the refresh iteration ends in `failed` — the task dies with
BaseException — rather than issuing a fresh initial registration. -/
theorem registration_update_failure_counterexample :
    registration_task_step ⟨60, "ep", "U", "tok", []⟩ false 132 [] =
      .failed "unexpected code received" := by decide

/-! ## Executable resources (src/lwm2m/resource.py lines 219..221) -/

/-- `LwM2MExecutableResource.render_post`: run the callback and reply
CHANGED.  The request is not inspected at all; the Nat counts callback
invocations. -/
def executable_render_post (_req : WriteReq) (exec_count : Nat) : Code × Nat :=
  (.CHANGED, exec_count + 1)

/-- Claim C10: a POST to an Executable resource invokes the callback exactly
once and replies CHANGED, for every payload and content format — the
handler has no validation and no error branch. -/
theorem executable_post_always_changed (req : WriteReq) (n : Nat) :
    executable_render_post req n = (.CHANGED, n + 1) := rfl

end LwM2M

